import Mathlib

/-!
Shallow embedding of the core logic of the MoonTVPlus repository:
the best-access-URL resolver and local-network classifier from
`src/lib/network-utils.ts`, and the TVBox subscription parser from
`src/app/api/tvbox/parse-subscription/route.ts` together with its twin
in `src/lib/admin-auth.ts`.

JavaScript strings are modelled as Lean `String`; a possibly-absent JS
value (`undefined`/missing field) is `Option`. JavaScript truthiness of
a string-or-undefined value is non-emptiness of a present string.
-/

namespace MoonTV

/-- JS truthiness of a `string | undefined` value: a present, non-empty
string is truthy; `undefined` and `""` are falsy. -/
def jsTruthy : Option String → Bool
  | some s => s ≠ ""
  | none => false

/-- `a || ''` on a `string | undefined` value: yields the string when
truthy, otherwise the empty string. -/
def jsOrEmpty : Option String → String
  | some s => s
  | none => ""

/-- Models `String.prototype.startsWith` / an `^`-anchored literal regex
prefix: `pre` is a prefix of `s`. -/
def strStartsWith (s pre : String) : Bool :=
  pre.toList.isPrefixOf s.toList

/-- `needle` occurs as a contiguous sublist of the second argument. -/
def listContains (needle : List Char) : List Char → Bool
  | [] => needle.isEmpty
  | c :: rest => needle.isPrefixOf (c :: rest) || listContains needle rest

/-- Models `String.prototype.includes`: `sub` occurs as a contiguous
substring of `s`. -/
def strContains (s sub : String) : Bool :=
  listContains sub.toList s.toList

/-- Ambient execution environment read by `getBestAccessURL`:
`isServer` models `typeof window === 'undefined'`, `envSiteBase` models
`process.env.SITE_BASE`, and `windowOrigin` models
`window.location.origin` (only meaningful when `isServer = false`,
where the browser always provides it). -/
structure JsEnv where
  isServer : Bool
  envSiteBase : Option String
  windowOrigin : String
  deriving Repr, DecidableEq

/-- Embedding of `getBestAccessURL(currentOrigin?, port?, dbSiteBase?)`
from `src/lib/network-utils.ts` (lines 155-192). The early returns of
the source become nested conditionals; console logging is a no-op. -/
def getBestAccessURL (currentOrigin : Option String) (_port : Option Nat)
    (dbSiteBase : Option String) (env : JsEnv) : String :=
  -- 1. 优先使用环境变量配置的地址 (server context only)
  if env.isServer then
    if jsTruthy env.envSiteBase then jsOrEmpty env.envSiteBase
    -- 2. 使用数据库配置的地址
    else if jsTruthy dbSiteBase then jsOrEmpty dbSiteBase
    -- 3. 使用客户端传来的地址
    else if jsTruthy currentOrigin then jsOrEmpty currentOrigin
    -- 4. 最后的回退: window is undefined here, so the default
    else "http://localhost:3000"
  else
    -- client context: steps 1-2 are skipped entirely
    if jsTruthy currentOrigin then jsOrEmpty currentOrigin
    else env.windowOrigin

/-- The sixteen two-digit strings matched by the regex alternation
`1[6-9]|2[0-9]|3[0-1]` in `isLocalNetwork`. -/
def octet172 : List String :=
  ["16", "17", "18", "19", "20", "21", "22", "23",
   "24", "25", "26", "27", "28", "29", "30", "31"]

/-- Embedding of `isLocalNetwork(hostname)` from
`src/lib/network-utils.ts` (lines 197-211). The three anchored regexes
`^192\.168\.`, `^10\.` and `^172\.(1[6-9]|2[0-9]|3[0-1])\.` become
prefix tests; the alternation is expanded into `octet172`. -/
def isLocalNetwork (hostname : String) : Bool :=
  if hostname = "localhost" ∨ hostname = "127.0.0.1" then true
  else
    strStartsWith hostname "192.168." ||
    strStartsWith hostname "10." ||
    octet172.any (fun d => strStartsWith hostname ("172." ++ d ++ "."))

/-! ### Models of the JavaScript platform string/URL primitives used by
the subscription parser: `encodeURIComponent`, `decodeURIComponent`,
and `new URL(...).searchParams.get(...)`. -/

/-- Hexadecimal digit value of a character, if it is one. -/
def hexVal (c : Char) : Option Nat :=
  if '0' ≤ c ∧ c ≤ '9' then some (c.toNat - 48)
  else if 'A' ≤ c ∧ c ≤ 'F' then some (c.toNat - 55)
  else if 'a' ≤ c ∧ c ≤ 'f' then some (c.toNat - 87)
  else none

/-- A percent-lexing token: either a literal character or the byte of a
decoded `%XY` escape. -/
inductive PctTok where
  | lit (c : Char)
  | byte (b : Nat)
  deriving Repr, DecidableEq

/-- Strict percent lexer, as used by `decodeURIComponent`: every `%`
must be followed by two hex digits, otherwise the whole decode fails
(a `URIError`). -/
def lexPctStrict : List Char → Option (List PctTok)
  | [] => some []
  | '%' :: rest =>
    match rest with
    | h :: l :: rest₂ =>
      match hexVal h, hexVal l with
      | some a, some b => (lexPctStrict rest₂).map (PctTok.byte (16 * a + b) :: ·)
      | _, _ => none
    | _ => none
  | c :: rest => (lexPctStrict rest).map (PctTok.lit c :: ·)

/-- Lenient percent lexer, as used by `application/x-www-form-urlencoded`
decoding inside `URLSearchParams`: a `%` not followed by two hex digits
is kept as a literal character. -/
def lexPctLenient : List Char → List PctTok
  | [] => []
  | '%' :: h :: l :: rest₂ =>
    match hexVal h, hexVal l with
    | some a, some b => PctTok.byte (16 * a + b) :: lexPctLenient rest₂
    | _, _ => PctTok.lit '%' :: lexPctLenient (h :: l :: rest₂)
  | '%' :: rest => PctTok.lit '%' :: lexPctLenient rest
  | c :: rest => PctTok.lit c :: lexPctLenient rest

/-- Is `b` a UTF-8 continuation byte, i.e. in `[0x80, 0xBF]`? -/
def isCont (b : Nat) : Bool := 0x80 ≤ b && b < 0xC0

/-- Strict UTF-8 decoding of a percent-token stream: literal characters
pass through, escape bytes must form valid (non-overlong, non-surrogate,
in-range) UTF-8 sequences, otherwise the decode fails. Models the
`URIError`-throwing decode of `decodeURIComponent`. -/
def utf8Strict : List PctTok → Option (List Char)
  | [] => some []
  | PctTok.lit c :: rest => (utf8Strict rest).map (c :: ·)
  | PctTok.byte b :: rest =>
    if b < 0x80 then (utf8Strict rest).map (Char.ofNat b :: ·)
    else if b < 0xC0 then none
    else if b < 0xE0 then
      match rest with
      | PctTok.byte x :: rest₂ =>
        if isCont x then
          let cp := (b - 0xC0) * 64 + (x - 0x80)
          if cp < 0x80 then none else (utf8Strict rest₂).map (Char.ofNat cp :: ·)
        else none
      | _ => none
    else if b < 0xF0 then
      match rest with
      | PctTok.byte x :: PctTok.byte y :: rest₂ =>
        if isCont x && isCont y then
          let cp := (b - 0xE0) * 4096 + (x - 0x80) * 64 + (y - 0x80)
          if cp < 0x800 ∨ (0xD800 ≤ cp ∧ cp ≤ 0xDFFF) then none
          else (utf8Strict rest₂).map (Char.ofNat cp :: ·)
        else none
      | _ => none
    else if b < 0xF8 then
      match rest with
      | PctTok.byte x :: PctTok.byte y :: PctTok.byte z :: rest₂ =>
        if isCont x && isCont y && isCont z then
          let cp := (b - 0xF0) * 262144 + (x - 0x80) * 4096 + (y - 0x80) * 64 + (z - 0x80)
          if cp < 0x10000 ∨ 0x10FFFF < cp then none
          else (utf8Strict rest₂).map (Char.ofNat cp :: ·)
        else none
      | _ => none
    else none

/-- One step of the lenient WHATWG UTF-8 decoder: given a leading
escape byte `b` and the rest of the token stream, produce the decoded
character (U+FFFD on any invalid sequence) and the number of extra
continuation tokens consumed. Not recursive. -/
def utf8LenientStep (b : Nat) (rest : List PctTok) : Char × Nat :=
  if b < 0x80 then (Char.ofNat b, 0)
  else if b < 0xC0 then (Char.ofNat 0xFFFD, 0)
  else if b < 0xE0 then
    match rest with
    | PctTok.byte x :: _ =>
      if isCont x then
        let cp := (b - 0xC0) * 64 + (x - 0x80)
        if cp < 0x80 then (Char.ofNat 0xFFFD, 1)
        else (Char.ofNat cp, 1)
      else (Char.ofNat 0xFFFD, 0)
    | _ => (Char.ofNat 0xFFFD, 0)
  else if b < 0xF0 then
    match rest with
    | PctTok.byte x :: PctTok.byte y :: _ =>
      if isCont x && isCont y then
        let cp := (b - 0xE0) * 4096 + (x - 0x80) * 64 + (y - 0x80)
        if cp < 0x800 ∨ (0xD800 ≤ cp ∧ cp ≤ 0xDFFF) then
          (Char.ofNat 0xFFFD, 2)
        else (Char.ofNat cp, 2)
      else (Char.ofNat 0xFFFD, 0)
    | _ => (Char.ofNat 0xFFFD, 0)
  else if b < 0xF8 then
    match rest with
    | PctTok.byte x :: PctTok.byte y :: PctTok.byte z :: _ =>
      if isCont x && isCont y && isCont z then
        let cp := (b - 0xF0) * 262144 + (x - 0x80) * 4096 +
          (y - 0x80) * 64 + (z - 0x80)
        if cp < 0x10000 ∨ 0x10FFFF < cp then (Char.ofNat 0xFFFD, 3)
        else (Char.ofNat cp, 3)
      else (Char.ofNat 0xFFFD, 0)
    | _ => (Char.ofNat 0xFFFD, 0)
  else (Char.ofNat 0xFFFD, 0)

/-- Fuel-bounded lenient UTF-8 decoding: structurally recursive on the
fuel so that it evaluates by kernel reduction. Each step consumes at
least one token, so fuel equal to the token count never runs out. -/
def utf8LenientFuel : Nat → List PctTok → List Char
  | 0, _ => []
  | _ + 1, [] => []
  | fuel + 1, PctTok.lit c :: rest => c :: utf8LenientFuel fuel rest
  | fuel + 1, PctTok.byte b :: rest =>
    (utf8LenientStep b rest).1 ::
      utf8LenientFuel fuel (rest.drop (utf8LenientStep b rest).2)

/-- Lenient UTF-8 decoding of a percent-token stream: an invalid escape
sequence yields U+FFFD for its leading byte, as in the WHATWG decoder
used by `URLSearchParams`. -/
def utf8Lenient (toks : List PctTok) : List Char :=
  utf8LenientFuel toks.length toks

/-- Model of ECMAScript `decodeURIComponent`: `none` models a thrown
`URIError` (malformed escape or invalid UTF-8). -/
def decodeURIComponentModel (s : String) : Option String :=
  match lexPctStrict s.toList with
  | none => none
  | some toks =>
    match utf8Strict toks with
    | none => none
    | some cs => some (String.mk cs)

/-- UTF-8 bytes of a single character (code point ≤ 0x10FFFF). -/
def utf8Bytes (c : Char) : List Nat :=
  let n := c.toNat
  if n < 0x80 then [n]
  else if n < 0x800 then [0xC0 + n / 64, 0x80 + n % 64]
  else if n < 0x10000 then
    [0xE0 + n / 4096, 0x80 + (n / 64) % 64, 0x80 + n % 64]
  else
    [0xF0 + n / 262144, 0x80 + (n / 4096) % 64, 0x80 + (n / 64) % 64, 0x80 + n % 64]

/-- Uppercase hexadecimal digit for a value below 16. -/
def hexDigit (n : Nat) : Char :=
  if n < 10 then Char.ofNat (48 + n) else Char.ofNat (55 + n)

/-- `%XY` escape for one byte, uppercase hex as `encodeURIComponent`
produces. -/
def pctEncodeByte (b : Nat) : List Char :=
  ['%', hexDigit (b / 16), hexDigit (b % 16)]

/-- Characters `encodeURIComponent` leaves unescaped:
`A-Z a-z 0-9 - _ . ! ~ * ' ( )`. -/
def uriUnreserved (c : Char) : Bool :=
  ('A' ≤ c ∧ c ≤ 'Z') ∨ ('a' ≤ c ∧ c ≤ 'z') ∨ ('0' ≤ c ∧ c ≤ '9') ∨
  c ∈ ['-', '_', '.', '!', '~', '*', Char.ofNat 39, '(', ')']

/-- Model of ECMAScript `encodeURIComponent`. -/
def encodeURIComponentModel (s : String) : String :=
  String.mk (s.toList.flatMap fun c =>
    if uriUnreserved c then [c] else (utf8Bytes c).flatMap pctEncodeByte)

/-- First character of a candidate host part is present and is not a
delimiter. -/
def hostHead : List Char → Bool
  | [] => false
  | c :: _ => c ≠ '/' ∧ c ≠ '?' ∧ c ≠ '#'

/-- Models success of `new URL(s)` for the absolute `http(s)` URLs this
code base manipulates: an `http://` or `https://` scheme followed by a
non-empty host. (The WHATWG constructor accepts more schemes; only
`http(s)` URLs reach this code.) A `false` result models the
constructor throwing `TypeError`. -/
def urlCanParse (s : String) : Bool :=
  (strStartsWith s "http://" && hostHead (s.toList.drop 7)) ||
  (strStartsWith s "https://" && hostHead (s.toList.drop 8))

/-- Split a character list on a separator character; the result always
has one more group than there are separators. -/
def splitOnChar (sep : Char) : List Char → List (List Char)
  | [] => [[]]
  | c :: rest =>
    if c = sep then [] :: splitOnChar sep rest
    else
      match splitOnChar sep rest with
      | [] => [[c]]
      | g :: gs => (c :: g) :: gs

/-- Decode one `application/x-www-form-urlencoded` component: `+`
becomes a space, escapes are decoded leniently. -/
def formDecode (cs : List Char) : String :=
  String.mk (utf8Lenient (lexPctLenient
    (cs.map fun c => if c = '+' then ' ' else c)))

/-- One `name=value` pair of a query component, both parts form-decoded;
a pair without `=` has an empty value. -/
def queryPair (piece : List Char) : String × String :=
  (formDecode (piece.takeWhile (· ≠ '=')),
   formDecode ((piece.dropWhile (· ≠ '=')).drop 1))

/-- Models `new URL(url).searchParams.get(key)` on a URL accepted by
`urlCanParse`: take the query component (after the first `?`, before
any `#`), split it on `&`, skip empty pieces, and return the decoded
value of the first pair whose decoded name equals `key`; `none` models
the JS `null`. -/
def urlSearchParamsGet (url : String) (key : String) : Option String :=
  let beforeFrag := url.toList.takeWhile (· ≠ '#')
  if beforeFrag.any (· = '?') then
    let q := (beforeFrag.dropWhile (· ≠ '?')).drop 1
    let pieces := (splitOnChar '&' q).filter (· ≠ [])
    ((pieces.map queryPair).find? (fun p => p.1 = key)).map Prod.snd
  else none

/-! ### The subscription parser of
`src/app/api/tvbox/parse-subscription/route.ts` and its twin
`parseTVBoxSubscription` in `src/lib/admin-auth.ts`. -/

/-- Input site record of a subscription document (`sites` entry); every
field may be absent in the loosely typed JSON. -/
structure SiteRecord where
  key : Option String
  name : Option String
  type : Option Int
  api : Option String
  ext : Option String
  deriving Repr, DecidableEq

/-- Output shape for one parsed video source. -/
structure ParsedSite where
  name : String
  key : String
  api : String
  detail : String
  deriving Repr, DecidableEq

/-- Input live record of a subscription document (`lives` entry). -/
structure LiveRecord where
  name : Option String
  url : Option String
  epg : Option String
  ua : Option String
  deriving Repr, DecidableEq

/-- Output shape for one parsed live entry. -/
structure ParsedLive where
  name : String
  url : String
  epg : String
  ua : String
  deriving Repr, DecidableEq

/-- A subscription document: only `sites` and `lives` are consumed;
either may be absent. -/
structure SubscriptionDocument where
  sites : Option (List SiteRecord)
  lives : Option (List LiveRecord)
  deriving Repr, DecidableEq

/-- The proxy-unwrapping step applied to a raw `api` value (route.ts
lines 61-73, identical in admin-auth.ts): if it contains
`/api/cms-proxy?api=`, try `new URL`, read the `api` query parameter,
and when that is truthy replace the value with its
`decodeURIComponent`; any thrown error (URL parse or decode) is caught
and the original value kept. -/
def unwrapProxyApi (apiUrl : String) : String :=
  if strContains apiUrl "/api/cms-proxy?api=" then
    if urlCanParse apiUrl then
      match urlSearchParamsGet apiUrl "api" with
      | some originalApi =>
        if originalApi ≠ "" then
          match decodeURIComponentModel originalApi with
          | some decoded => decoded
          | none => apiUrl
        else apiUrl
      | none => apiUrl
    else apiUrl
  else apiUrl

/-- The per-site mapping of the parser (route.ts lines 58-81): default
absent fields to `""`, unwrap the proxy on `api`, rename `ext` to
`detail`. -/
def mapSite (site : SiteRecord) : ParsedSite :=
  { name := jsOrEmpty site.name
    key := jsOrEmpty site.key
    api := unwrapProxyApi (jsOrEmpty site.api)
    detail := jsOrEmpty site.ext }

/-- Site extraction of the POST handler (route.ts lines 55-82):
`subscriptionData.sites || []`, keep `type === 1`, map each record,
then keep only records whose `api` and `name` are truthy. -/
def parsedSitesPOST (subscriptionData : SubscriptionDocument) : List ParsedSite :=
  (((subscriptionData.sites.getD []).filter
      (fun site => site.type = some 1)).map mapSite).filter
    (fun site => site.api != "" && site.name != "")

/-- Live extraction of the POST handler (route.ts lines 85-91):
`subscriptionData.lives || []`, map each record defaulting absent
fields to `""`, then keep only records whose `url` and `name` are
truthy. No proxy unwrapping is applied. -/
def parsedLivesPOST (subscriptionData : SubscriptionDocument) : List ParsedLive :=
  ((subscriptionData.lives.getD []).map
    (fun live =>
      { name := jsOrEmpty live.name
        url := jsOrEmpty live.url
        epg := jsOrEmpty live.epg
        ua := jsOrEmpty live.ua : ParsedLive })).filter
    (fun live => live.url != "" && live.name != "")

/-- The `TVBoxSubscription` input of `parseTVBoxSubscription` in
`src/lib/admin-auth.ts` (lines 160-168); only the `sites` field is
consumed by the function, the other declared fields (`spider`,
`wallpaper`, `lives`, `parses`, `rules`, `ads`) are unused there. The
code guards with `data.sites || []` even though the interface declares
`sites` required, so the field is modelled as optional. -/
structure TVBoxSubscription where
  sites : Option (List SiteRecord)
  deriving Repr, DecidableEq

/-- Embedding of `parseTVBoxSubscription(data)` from
`src/lib/admin-auth.ts` (lines 180-212): `data.sites || []`, keep
`type === 1`, map with the same proxy-unwrapping body, keep truthy
`api` and `name`. -/
def parseTVBoxSubscription (data : TVBoxSubscription) : List ParsedSite :=
  let sites := data.sites.getD []
  ((sites.filter (fun site => site.type = some 1)).map
    (fun site =>
      let apiUrl := jsOrEmpty site.api
      let apiUrl :=
        if strContains apiUrl "/api/cms-proxy?api=" then
          if urlCanParse apiUrl then
            match urlSearchParamsGet apiUrl "api" with
            | some originalApi =>
              if originalApi ≠ "" then
                match decodeURIComponentModel originalApi with
                | some decoded => decoded
                | none => apiUrl
              else apiUrl
            | none => apiUrl
          else apiUrl
        else apiUrl
      { name := jsOrEmpty site.name
        key := jsOrEmpty site.key
        api := apiUrl
        detail := jsOrEmpty site.ext : ParsedSite })).filter
    (fun site => site.api != "" && site.name != "")

/-- The upstream HTTP response seen by the POST handler, as far as the
handler inspects it: `ok`/`status`/`statusText`, the `content-type`
header (`none` models a `null` header), and the body text. -/
structure FetchResponse where
  ok : Bool
  status : Nat
  statusText : String
  contentType : Option String
  bodyText : String

/-- Outcome of the POST handler: a success payload, a 400 response with
an error message, or the 500 response produced by the outer catch. -/
inductive PostResult where
  | success (sites : List ParsedSite) (lives : List ParsedLive)
  | badRequest (error : String)
  | internalError (error : String)
  deriving Repr, DecidableEq

/-- Embedding of the `POST` handler of
`src/app/api/tvbox/parse-subscription/route.ts` after the request body
has been read: `url` is the destructured `url` field (absent/empty is
falsy), `resp` the fetched upstream response, and `parseJson` models
`JSON.parse`/`response.json()` on the body text (`none` models a
thrown `SyntaxError`). A parse failure inside `response.json()` (taken
when the declared content type includes `application/json`) propagates
to the outer catch and becomes the 500 response; a parse failure of
`JSON.parse` on the raw text is caught locally and becomes the 400
"not valid JSON" response. -/
def POST (url : Option String) (resp : FetchResponse)
    (parseJson : String → Option SubscriptionDocument) : PostResult :=
  if ¬ jsTruthy url then PostResult.badRequest "请提供订阅链接"
  else if ¬ resp.ok then
    PostResult.badRequest
      ("获取订阅失败: " ++ toString resp.status ++ " " ++ resp.statusText)
  else
    let contentType := jsOrEmpty resp.contentType
    if strContains contentType "application/json" then
      match parseJson resp.bodyText with
      | some subscriptionData =>
        PostResult.success (parsedSitesPOST subscriptionData)
          (parsedLivesPOST subscriptionData)
      | none => PostResult.internalError "解析订阅失败"
    else
      match parseJson resp.bodyText with
      | some subscriptionData =>
        PostResult.success (parsedSitesPOST subscriptionData)
          (parsedLivesPOST subscriptionData)
      | none => PostResult.badRequest "订阅内容不是有效的JSON格式"

/-! ### Definitions used to compare `isLocalNetwork` with the claim's
wording. -/

/-- Parse a non-empty all-digit character list as a decimal number. -/
def parseDecDigits (cs : List Char) : Option Nat :=
  if cs ≠ [] ∧ cs.all (·.isDigit) then
    some (cs.foldl (fun a c => a * 10 + (c.toNat - 48)) 0)
  else none

/-- Does the THIRD dot-separated octet of `hostname` parse as a decimal
number in `[16, 31]`? Written to follow the claim's words about
`isLocalNetwork`, for comparison with the code. -/
def thirdOctetInRange (hostname : String) : Bool :=
  match parseDecDigits ((splitOnChar '.' hostname.toList).getD 2 []) with
  | some n => 16 ≤ n && n ≤ 31
  | none => false

/-- The classifier described literally by the claim's wording: accepts
`localhost`, `127.0.0.1`, the `192.168.` and `10.` prefixes, and a
`172.`-prefixed address whose THIRD octet lies in `[16, 31]`. Follows
the claim's words (not the code), for comparison with
`isLocalNetwork`. -/
def isLocalNetworkThirdOctetRule (hostname : String) : Bool :=
  hostname == "localhost" || hostname == "127.0.0.1" ||
  strStartsWith hostname "192.168." || strStartsWith hostname "10." ||
  (strStartsWith hostname "172." && thirdOctetInRange hostname)

/-- The `172.` alternation of the code is exactly "some second octet in
`[16, 31]`, written canonically, followed by a dot". -/
theorem any172_iff (s : String) :
    (octet172.any fun d => strStartsWith s ("172." ++ d ++ ".")) = true ↔
    ∃ n : Nat, 16 ≤ n ∧ n ≤ 31 ∧
      strStartsWith s ("172." ++ Nat.repr n ++ ".") = true := by
  constructor
  · intro h
    rcases List.any_eq_true.mp h with ⟨d, hd, hs⟩
    fin_cases hd
    · exact ⟨16, by norm_num, by norm_num, hs⟩
    · exact ⟨17, by norm_num, by norm_num, hs⟩
    · exact ⟨18, by norm_num, by norm_num, hs⟩
    · exact ⟨19, by norm_num, by norm_num, hs⟩
    · exact ⟨20, by norm_num, by norm_num, hs⟩
    · exact ⟨21, by norm_num, by norm_num, hs⟩
    · exact ⟨22, by norm_num, by norm_num, hs⟩
    · exact ⟨23, by norm_num, by norm_num, hs⟩
    · exact ⟨24, by norm_num, by norm_num, hs⟩
    · exact ⟨25, by norm_num, by norm_num, hs⟩
    · exact ⟨26, by norm_num, by norm_num, hs⟩
    · exact ⟨27, by norm_num, by norm_num, hs⟩
    · exact ⟨28, by norm_num, by norm_num, hs⟩
    · exact ⟨29, by norm_num, by norm_num, hs⟩
    · exact ⟨30, by norm_num, by norm_num, hs⟩
    · exact ⟨31, by norm_num, by norm_num, hs⟩
  · rintro ⟨n, h1, h2, hs⟩
    refine List.any_eq_true.mpr ?_
    interval_cases n
    · exact ⟨"16", by decide, hs⟩
    · exact ⟨"17", by decide, hs⟩
    · exact ⟨"18", by decide, hs⟩
    · exact ⟨"19", by decide, hs⟩
    · exact ⟨"20", by decide, hs⟩
    · exact ⟨"21", by decide, hs⟩
    · exact ⟨"22", by decide, hs⟩
    · exact ⟨"23", by decide, hs⟩
    · exact ⟨"24", by decide, hs⟩
    · exact ⟨"25", by decide, hs⟩
    · exact ⟨"26", by decide, hs⟩
    · exact ⟨"27", by decide, hs⟩
    · exact ⟨"28", by decide, hs⟩
    · exact ⟨"29", by decide, hs⟩
    · exact ⟨"30", by decide, hs⟩
    · exact ⟨"31", by decide, hs⟩

/-- `jsTruthy` on a present string decides non-emptiness. -/
theorem jsTruthy_some (s : String) : jsTruthy (some s) = decide (s ≠ "") := rfl

/-- `jsOrEmpty` on a present string is that string. -/
theorem jsOrEmpty_some (s : String) : jsOrEmpty (some s) = s := rfl

/-! ### The claims. -/

/-- C1: `getBestAccessURL` follows the priority order: in a server
context a non-empty environment base wins, else a non-empty persisted
base, else a non-empty caller origin, else the fixed default; in a
client context a non-empty caller origin wins, else the ambient page
origin. -/
theorem C1_getBestAccessURL_priority (o : Option String) (p : Option Nat)
    (db : Option String) (env : JsEnv) :
    (env.isServer = true → ∀ s, env.envSiteBase = some s → s ≠ "" →
      getBestAccessURL o p db env = s) ∧
    (env.isServer = true → jsTruthy env.envSiteBase = false →
      ∀ s, db = some s → s ≠ "" → getBestAccessURL o p db env = s) ∧
    (env.isServer = true → jsTruthy env.envSiteBase = false →
      jsTruthy db = false → ∀ s, o = some s → s ≠ "" →
      getBestAccessURL o p db env = s) ∧
    (env.isServer = false → ∀ s, o = some s → s ≠ "" →
      getBestAccessURL o p db env = s) ∧
    (env.isServer = false → jsTruthy o = false →
      getBestAccessURL o p db env = env.windowOrigin) ∧
    (env.isServer = true → jsTruthy env.envSiteBase = false →
      jsTruthy db = false → jsTruthy o = false →
      getBestAccessURL o p db env = "http://localhost:3000") := by
  refine ⟨?_, ?_, ?_, ?_, ?_, ?_⟩
  · intro h1 s h2 h3
    simp [getBestAccessURL, h1, h2, jsTruthy_some, jsOrEmpty_some, h3]
  · intro h1 h2 s h3 h4
    simp [getBestAccessURL, h1, h2, h3, jsTruthy_some, jsOrEmpty_some, h4]
  · intro h1 h2 h3 s h4 h5
    simp [getBestAccessURL, h1, h2, h3, h4, jsTruthy_some, jsOrEmpty_some, h5]
  · intro h1 s h2 h3
    simp [getBestAccessURL, h1, h2, jsTruthy_some, jsOrEmpty_some, h3]
  · intro h1 h2
    simp [getBestAccessURL, h1, h2]
  · intro h1 h2 h3 h4
    simp [getBestAccessURL, h1, h2, h3, h4]

/-- C1 witness: with a server context and every input supplied, the
environment base wins. -/
theorem C1_witness :
    getBestAccessURL (some "http://caller:8080") (some 3000)
      (some "http://db.example") ⟨true, some "http://env.example", "http://win"⟩ =
      "http://env.example" :=
  (C1_getBestAccessURL_priority (some "http://caller:8080") (some 3000)
    (some "http://db.example")
    ⟨true, some "http://env.example", "http://win"⟩).1 rfl
    "http://env.example" rfl (by decide)

/-- C8: `getBestAccessURL` is total and always yields a string, namely
one of the five candidate values; no input reaches an error branch. -/
theorem C8_getBestAccessURL_total (o : Option String) (p : Option Nat)
    (db : Option String) (env : JsEnv) :
    getBestAccessURL o p db env = jsOrEmpty env.envSiteBase ∨
    getBestAccessURL o p db env = jsOrEmpty db ∨
    getBestAccessURL o p db env = jsOrEmpty o ∨
    getBestAccessURL o p db env = env.windowOrigin ∨
    getBestAccessURL o p db env = "http://localhost:3000" := by
  unfold getBestAccessURL
  split_ifs <;> tauto

/-- C9: the `port` argument has no influence on the result of
`getBestAccessURL`. -/
theorem C9_port_no_influence (o : Option String) (p₁ p₂ : Option Nat)
    (db : Option String) (env : JsEnv) :
    getBestAccessURL o p₁ db env = getBestAccessURL o p₂ db env := rfl

/-- C7 counterexample: the code accepts `172.20.3.4` although its third
octet, `3`, is outside `[16, 31]`; the rule stated by the claim (third
octet in `[16, 31]`) rejects it, so the code does not implement that
rule. -/
theorem C7_counterexample :
    isLocalNetwork "172.20.3.4" = true ∧
    isLocalNetworkThirdOctetRule "172.20.3.4" = false := by decide

/-- C7 (amended: SECOND octet): `isLocalNetwork` accepts exactly
`localhost`, `127.0.0.1`, the `192.168.` and `10.` prefixes, and
`172.<n>.` prefixes with the second octet `n` in `[16, 31]`; and the
claim's concrete examples evaluate as stated. -/
theorem C7_isLocalNetwork_spec :
    (∀ s : String, isLocalNetwork s = true ↔
      (s = "localhost" ∨ s = "127.0.0.1" ∨
       strStartsWith s "192.168." = true ∨ strStartsWith s "10." = true ∨
       ∃ n : Nat, 16 ≤ n ∧ n ≤ 31 ∧
         strStartsWith s ("172." ++ Nat.repr n ++ ".") = true)) ∧
    isLocalNetwork "192.168.1.5" = true ∧
    isLocalNetwork "10.0.0.1" = true ∧
    isLocalNetwork "172.20.3.4" = true ∧
    isLocalNetwork "localhost" = true ∧
    isLocalNetwork "127.0.0.1" = true ∧
    isLocalNetwork "8.8.8.8" = false ∧
    isLocalNetwork "172.32.0.1" = false := by
  refine ⟨?_, by decide, by decide, by decide, by decide, by decide,
    by decide, by decide⟩
  intro s
  unfold isLocalNetwork
  by_cases h : s = "localhost" ∨ s = "127.0.0.1"
  · simp only [if_pos h]
    tauto
  · simp only [if_neg h]
    rw [Bool.or_eq_true, Bool.or_eq_true, any172_iff]
    tauto

/-- C7 witness: the amended characterization applied at `172.16.0.9`. -/
theorem C7_witness : isLocalNetwork "172.16.0.9" = true :=
  (C7_isLocalNetwork_spec.1 "172.16.0.9").mpr
    (Or.inr (Or.inr (Or.inr (Or.inr ⟨16, by norm_num, by norm_num, by decide⟩))))

/-- C2: wrapping a URL into the cms-proxy form with `encodeURIComponent`
and parsing the resulting type-1 site record round-trips: the emitted
effective `api` is exactly the original URL. -/
theorem C2_proxy_roundtrip :
    parsedSitesPOST
      ⟨some [⟨some "k", some "N", some 1,
        some ("http://host/api/cms-proxy?api=" ++
          encodeURIComponentModel "http://real.site/api"), none⟩], none⟩ =
      [{ name := "N", key := "k", api := "http://real.site/api", detail := "" }] := by
  decide

/-- C3: every emitted site has a non-empty `name` and `api`, and every
emitted live entry has a non-empty `name` and `url`; records failing
this never appear in the output. -/
theorem C3_nonempty_invariant (d : SubscriptionDocument) :
    (∀ site ∈ parsedSitesPOST d, site.name ≠ "" ∧ site.api ≠ "") ∧
    (∀ live ∈ parsedLivesPOST d, live.name ≠ "" ∧ live.url ≠ "") := by
  constructor
  · intro site hsite
    have h := (List.mem_filter.mp hsite).2
    simp only [Bool.and_eq_true, bne_iff_ne, ne_eq] at h
    exact ⟨h.2, h.1⟩
  · intro live hlive
    have h := (List.mem_filter.mp hlive).2
    simp only [Bool.and_eq_true, bne_iff_ne, ne_eq] at h
    exact ⟨h.2, h.1⟩

/-- C3 witness: the invariant applied to a concrete one-site document. -/
theorem C3_witness :
    ({ name := "A", key := "k", api := "http://x", detail := "" } : ParsedSite).name ≠ "" ∧
    ({ name := "A", key := "k", api := "http://x", detail := "" } : ParsedSite).api ≠ "" :=
  (C3_nonempty_invariant
    ⟨some [⟨some "k", some "A", some 1, some "http://x", none⟩], none⟩).1
    { name := "A", key := "k", api := "http://x", detail := "" } (by decide)

/-- C5: every emitted site comes from an input record whose `type` is
exactly `1` (records of every other type are dropped), and on the
claim's concrete two-record document the output is exactly the one site
named `A`. -/
theorem C5_type_filter :
    (∀ (d : SubscriptionDocument) (q : ParsedSite), q ∈ parsedSitesPOST d →
      ∃ site ∈ d.sites.getD [], site.type = some 1 ∧ q = mapSite site) ∧
    parsedSitesPOST
      ⟨some [⟨some "k", some "A", some 1, some "http://x", none⟩,
        ⟨none, some "B", some 2, some "http://y", none⟩], none⟩ =
      [{ name := "A", key := "k", api := "http://x", detail := "" }] := by
  constructor
  · intro d q hq
    rcases List.mem_map.mp (List.mem_filter.mp hq).1 with ⟨site, hsite, rfl⟩
    have h2 := List.mem_filter.mp hsite
    refine ⟨site, h2.1, ?_, rfl⟩
    simpa using h2.2
  · decide

/-- C5 witness: the projection applied to the concrete document. -/
theorem C5_witness :
    ∃ site ∈ (⟨some [⟨some "k", some "A", some 1, some "http://x", none⟩,
        ⟨none, some "B", some 2, some "http://y", none⟩], none⟩ :
        SubscriptionDocument).sites.getD [],
      site.type = some 1 ∧
      ({ name := "A", key := "k", api := "http://x", detail := "" } :
        ParsedSite) = mapSite site :=
  C5_type_filter.1
    ⟨some [⟨some "k", some "A", some 1, some "http://x", none⟩,
      ⟨none, some "B", some 2, some "http://y", none⟩], none⟩
    { name := "A", key := "k", api := "http://x", detail := "" } (by decide)

/-- C6: each live record maps to `{name, url, epg, ua}` with `epg` and
`ua` defaulting to `""`, kept exactly when `name` and `url` are
non-empty, with no proxy unwrapping (the output `url` is the raw input
`url`); the claim's concrete record yields the stated output. -/
theorem C6_live_mapping :
    (∀ (d : SubscriptionDocument) (q : ParsedLive), q ∈ parsedLivesPOST d →
      ∃ live ∈ d.lives.getD [],
        q = { name := jsOrEmpty live.name, url := jsOrEmpty live.url,
              epg := jsOrEmpty live.epg, ua := jsOrEmpty live.ua }) ∧
    (∀ (d : SubscriptionDocument) (live : LiveRecord), live ∈ d.lives.getD [] →
      jsOrEmpty live.name ≠ "" → jsOrEmpty live.url ≠ "" →
      ({ name := jsOrEmpty live.name, url := jsOrEmpty live.url,
         epg := jsOrEmpty live.epg, ua := jsOrEmpty live.ua } : ParsedLive) ∈
        parsedLivesPOST d) ∧
    parsedLivesPOST ⟨none, some [⟨some "L", some "http://l", none, none⟩]⟩ =
      [{ name := "L", url := "http://l", epg := "", ua := "" }] := by
  refine ⟨?_, ?_, by decide⟩
  · intro d q hq
    rcases List.mem_map.mp (List.mem_filter.mp hq).1 with ⟨live, hlive, rfl⟩
    exact ⟨live, hlive, rfl⟩
  · intro d live hlive hn hu
    refine List.mem_filter.mpr ⟨List.mem_map.mpr ⟨live, hlive, rfl⟩, ?_⟩
    simp only [Bool.and_eq_true, bne_iff_ne, ne_eq]
    exact ⟨hu, hn⟩

/-- C6 witness: the mapping applied to the concrete live record. -/
theorem C6_witness :
    ({ name := "L", url := "http://l", epg := "", ua := "" } : ParsedLive) ∈
      parsedLivesPOST ⟨none, some [⟨some "L", some "http://l", none, none⟩]⟩ :=
  C6_live_mapping.2.1 ⟨none, some [⟨some "L", some "http://l", none, none⟩]⟩
    ⟨some "L", some "http://l", none, none⟩ (by decide) (by decide) (by decide)

/-- C10: the site extraction inside the POST handler and the standalone
`parseTVBoxSubscription` are extensionally equivalent on every
subscription document. -/
theorem C10_parsers_equivalent (d : SubscriptionDocument) :
    parsedSitesPOST d = parseTVBoxSubscription ⟨d.sites⟩ := rfl

/-- C4 counterexample: with a declared `application/json` content type
and a body that is not valid JSON, `response.json()` throws and the
outer catch produces the 500 internal error, not the 400 "not valid
JSON" error — refuting the claim's "regardless of the response's
declared content type". -/
theorem C4_counterexample :
    POST (some "http://sub.example/list.json")
      ⟨true, 200, "OK", some "application/json", "not json"⟩ (fun _ => none) =
      PostResult.internalError "解析订阅失败" ∧
    POST (some "http://sub.example/list.json")
      ⟨true, 200, "OK", some "application/json", "not json"⟩ (fun _ => none) ≠
      PostResult.badRequest "订阅内容不是有效的JSON格式" := by decide

/-- C4 (amended): no URL gives the 400 missing-url error; a supplied
URL with an OK upstream response whose declared content type does NOT
include `application/json` and whose body is not valid JSON gives the
distinct 400 "not valid JSON" error; when the declared content type
does include `application/json`, an invalid body surfaces through the
catch-all as the 500 internal error. -/
theorem C4_error_handling (url : Option String) (resp : FetchResponse)
    (parseJson : String → Option SubscriptionDocument) :
    (jsTruthy url = false →
      POST url resp parseJson = PostResult.badRequest "请提供订阅链接") ∧
    (jsTruthy url = true → resp.ok = true →
      strContains (jsOrEmpty resp.contentType) "application/json" = false →
      parseJson resp.bodyText = none →
      POST url resp parseJson = PostResult.badRequest "订阅内容不是有效的JSON格式") ∧
    (jsTruthy url = true → resp.ok = true →
      strContains (jsOrEmpty resp.contentType) "application/json" = true →
      parseJson resp.bodyText = none →
      POST url resp parseJson = PostResult.internalError "解析订阅失败") ∧
    PostResult.badRequest "订阅内容不是有效的JSON格式" ≠
      PostResult.badRequest "请提供订阅链接" := by
  refine ⟨?_, ?_, ?_, by decide⟩
  · intro h1
    simp [POST, h1]
  · intro h1 h2 h3 h4
    simp [POST, h1, h2, h3, h4]
  · intro h1 h2 h3 h4
    simp [POST, h1, h2, h3, h4]

/-- C4 witness: the amended behaviour at concrete inputs. -/
theorem C4_witness :
    POST (some "http://sub.example/cfg") ⟨true, 200, "OK", some "text/html", "oops"⟩
      (fun _ => none) = PostResult.badRequest "订阅内容不是有效的JSON格式" :=
  (C4_error_handling (some "http://sub.example/cfg")
    ⟨true, 200, "OK", some "text/html", "oops"⟩ (fun _ => none)).2.1
    (by decide) rfl (by decide) rfl

end MoonTV
